import Mathlib

/-!
Verification of the cache-aside core of gadz82/go-api-boilerplate.

Shallow embedding of:
  * `internal/service/items/item_service.go` (item entity cache service)
  * the item-property entity cache service (same package)
  * `internal/repository/file/cache_repository.go` (disk-backed cache backend)
  * `di.NewCacheRepository` (startup backend selector)

The external collaborators (relational store, JSON codec, the abstract
cache port the services call) are modelled as explicit parameters /
test doubles, mirroring the repository's own unit-test mocks; each
service operation is a pure function returning its result, the new
cache state, and the trace of backend invocations it performed.
-/

/-- Error kinds observed by the core.  Go uses the open `error`
interface; the constructors below are the distinct error identities the
code branches on: the file cache's sentinel values `ErrCacheKeyNotFound`
and `ErrCacheExpired`, a JSON decode error (distinct from both
sentinels), a cache-backend connectivity failure, and a store error
carrying an opaque message. -/
inductive Err where
  | keyNotFound
  | expired
  | decode
  | backendDown
  | store (msg : String)
deriving DecidableEq

/-- Embeds `domain.Item` (id, title, description; timestamps and the relation
slice carry no information used by the cache-aside logic). -/
structure Item where
  id : String
  title : String
  description : String
deriving DecidableEq

/-- Embeds `domain.ItemProperty` (id, item_id, name, value). -/
structure ItemProperty where
  id : String
  itemID : String
  name : String
  value : String
deriving DecidableEq

/-- Association-list lookup by string key (leftmost binding wins). -/
def findVal {β : Type} (k : String) : List (String × β) → Option β
  | [] => none
  | (k', v) :: rest => if k = k' then some v else findVal k rest

/-- Association-list insert-or-overwrite at a string key. -/
def setEntry {β : Type} (k : String) (v : β) : List (String × β) → List (String × β)
  | [] => [(k, v)]
  | (k', v') :: rest => if k = k' then (k, v) :: rest else (k', v') :: setEntry k v rest

/-- Association-list removal of a string key (idempotent on absence). -/
def delEntry {β : Type} (k : String) : List (String × β) → List (String × β)
  | [] => []
  | (k', v') :: rest => if k = k' then delEntry k rest else (k', v') :: delEntry k rest

/-- Backend-invocation trace of one service operation: every cache
get/set/delete attempted (whether or not it succeeded) and every call
into the entity store. -/
inductive Ev where
  | evGet (key : String)
  | evSet (key : String) (value : String)
  | evDel (key : String)
  | evStore
deriving DecidableEq

/-- Test double for `domain.CacheRepository` as the services see it:
a key/value table plus injectable per-operation failures (mirroring
`MockCacheRepository` in `item_service_test.go`). -/
structure SvcCache where
  entries : List (String × String)
  failGet : Bool
  failSet : Bool
  failDelete : Bool
deriving DecidableEq

/-- Cache `Get`: fails when a get failure is injected, otherwise
returns the stored value or `ErrCacheKeyNotFound`. -/
def SvcCache.get (c : SvcCache) (k : String) : Except Err String :=
  if c.failGet then .error .backendDown
  else
    match findVal k c.entries with
    | some v => .ok v
    | none => .error .keyNotFound

/-- Cache `Set`: fails (without storing) when a set failure is
injected, otherwise overwrites the binding. -/
def SvcCache.set (c : SvcCache) (k v : String) : Except Err Unit × SvcCache :=
  if c.failSet then (.error .backendDown, c)
  else (.ok (), { c with entries := setEntry k v c.entries })

/-- Cache `Delete`: fails when a delete failure is injected, otherwise
removes the binding (success also on absence). -/
def SvcCache.delete (c : SvcCache) (k : String) : Except Err Unit × SvcCache :=
  if c.failDelete then (.error .backendDown, c)
  else (.ok (), { c with entries := delEntry k c.entries })

/-- Response table of `domain.ItemRepository` (the relational store is
an external collaborator; within a single service call it is consulted
at most once, so a deterministic response table is faithful). -/
structure ItemStore where
  getAll : Except Err (List Item)
  getByID : String → Except Err Item
  create : Item → Except Err Unit
  update : Item → Except Err Unit
  delete : String → Except Err Unit

/-- Response table of `domain.ItemPropertyRepository`. -/
structure PropStore where
  getAllByItemID : String → Except Err (List ItemProperty)
  getByID : String → String → Except Err ItemProperty
  create : ItemProperty → Except Err Unit
  update : ItemProperty → Except Err Unit
  delete : String → String → Except Err Unit

/-- Cache key `item:<id>` (`fmt.Sprintf("%s%s", itemCacheKeyPrefix, id)`). -/
def itemCacheKey (id : String) : String := "item:" ++ id

/-- Cache key `items:list`. -/
def itemsListCacheKey : String := "items:list"

/-- Cache key `item_property:<item-id>:<property-id>`. -/
def itemPropertyCacheKey (itemID id : String) : String :=
  "item_property:" ++ itemID ++ ":" ++ id

/-- Cache key `item_properties:list:<item-id>`. -/
def itemPropertiesListCacheKey (itemID : String) : String :=
  "item_properties:list:" ++ itemID

/-- The Go hit test `err == nil && cached != ""` followed by a
successful `json.Unmarshal` into the entity shape: yields the decoded
entity on a hit, `none` on any miss (get error, empty value, or decode
failure). -/
def tryCacheHit {α : Type} (getRes : Except Err String) (u : String → Option α) : Option α :=
  match getRes with
  | .ok cached => if cached = "" then none else u cached
  | .error _ => none

/-- The shared shape of the four read operations (`GetAllItems`,
`GetItemByID`, `GetItemPropertiesByItemID`, `GetItemPropertyByID` are
line-for-line identical modulo key, store call and codec): try the
cache; on a hit return the cached entity; on a miss call the store,
propagate a store error untouched, and otherwise best-effort populate
the cache (`json.Marshal` failure skips the `Set`; a failed `Set` is
only logged) and return the store's answer. -/
def cachedRead {α : Type} (c : SvcCache) (key : String)
    (storeCall : Except Err α) (mOpt : α → Option String) (u : String → Option α) :
    Except Err α × SvcCache × List Ev :=
  match tryCacheHit (c.get key) u with
  | some a => (.ok a, c, [.evGet key])
  | none =>
    match storeCall with
    | .error e => (.error e, c, [.evGet key, .evStore])
    | .ok a =>
      match mOpt a with
      | none => (.ok a, c, [.evGet key, .evStore])
      | some data => (.ok a, (c.set key data).2, [.evGet key, .evStore, .evSet key data])

/-- The shared shape of the two create operations: store write first;
on failure return the error with no cache mutation; on success delete
the relevant list key (delete failure only logged). -/
def storeWriteInvalidateList (c : SvcCache) (storeCall : Except Err Unit) (listKey : String) :
    Except Err Unit × SvcCache × List Ev :=
  match storeCall with
  | .error e => (.error e, c, [.evStore])
  | .ok _ => (.ok (), (c.delete listKey).2, [.evStore, .evDel listKey])

/-- The shared shape of the four update/delete operations: store write
first; on failure return the error with no cache mutation; on success
delete the single-entity key and then the relevant list key (delete
failures only logged). -/
def storeWriteInvalidateBoth (c : SvcCache) (storeCall : Except Err Unit)
    (entityKey listKey : String) : Except Err Unit × SvcCache × List Ev :=
  match storeCall with
  | .error e => (.error e, c, [.evStore])
  | .ok _ =>
    let c1 := (c.delete entityKey).2
    let c2 := (c1.delete listKey).2
    (.ok (), c2, [.evStore, .evDel entityKey, .evDel listKey])

/-- Embeds `itemService.GetAllItems`. -/
def GetAllItems (c : SvcCache) (st : ItemStore)
    (m : List Item → Option String) (u : String → Option (List Item)) :
    Except Err (List Item) × SvcCache × List Ev :=
  cachedRead c itemsListCacheKey st.getAll m u

/-- Embeds `itemService.GetItemByID`. -/
def GetItemByID (c : SvcCache) (st : ItemStore) (id : String)
    (m : Item → Option String) (u : String → Option Item) :
    Except Err Item × SvcCache × List Ev :=
  cachedRead c (itemCacheKey id) (st.getByID id) m u

/-- Embeds `itemService.CreateItem`: store create, then invalidate `items:list`. -/
def CreateItem (c : SvcCache) (st : ItemStore) (it : Item) :
    Except Err Unit × SvcCache × List Ev :=
  storeWriteInvalidateList c (st.create it) itemsListCacheKey

/-- Embeds `itemService.UpdateItem`: store update, then invalidate
`item:<id>` and `items:list`. -/
def UpdateItem (c : SvcCache) (st : ItemStore) (it : Item) :
    Except Err Unit × SvcCache × List Ev :=
  storeWriteInvalidateBoth c (st.update it) (itemCacheKey it.id) itemsListCacheKey

/-- Embeds `itemService.DeleteItem`: store delete, then invalidate
`item:<id>` and `items:list`. -/
def DeleteItem (c : SvcCache) (st : ItemStore) (id : String) :
    Except Err Unit × SvcCache × List Ev :=
  storeWriteInvalidateBoth c (st.delete id) (itemCacheKey id) itemsListCacheKey

/-- Embeds `itemPropertyService.GetItemPropertiesByItemID`. -/
def GetItemPropertiesByItemID (c : SvcCache) (st : PropStore) (itemID : String)
    (m : List ItemProperty → Option String) (u : String → Option (List ItemProperty)) :
    Except Err (List ItemProperty) × SvcCache × List Ev :=
  cachedRead c (itemPropertiesListCacheKey itemID) (st.getAllByItemID itemID) m u

/-- Embeds `itemPropertyService.GetItemPropertyByID`. -/
def GetItemPropertyByID (c : SvcCache) (st : PropStore) (itemID id : String)
    (m : ItemProperty → Option String) (u : String → Option ItemProperty) :
    Except Err ItemProperty × SvcCache × List Ev :=
  cachedRead c (itemPropertyCacheKey itemID id) (st.getByID itemID id) m u

/-- Embeds `itemPropertyService.CreateItemProperty`: store create, then
invalidate `item_properties:list:<item-id>`. -/
def CreateItemProperty (c : SvcCache) (st : PropStore) (p : ItemProperty) :
    Except Err Unit × SvcCache × List Ev :=
  storeWriteInvalidateList c (st.create p) (itemPropertiesListCacheKey p.itemID)

/-- Embeds `itemPropertyService.UpdateItemProperty`: store update, then
invalidate the single-property key and the item's list key. -/
def UpdateItemProperty (c : SvcCache) (st : PropStore) (p : ItemProperty) :
    Except Err Unit × SvcCache × List Ev :=
  storeWriteInvalidateBoth c (st.update p)
    (itemPropertyCacheKey p.itemID p.id) (itemPropertiesListCacheKey p.itemID)

/-- Embeds `itemPropertyService.DeleteItemProperty`: store delete, then
invalidate the single-property key and the item's list key. -/
def DeleteItemProperty (c : SvcCache) (st : PropStore) (itemID id : String) :
    Except Err Unit × SvcCache × List Ev :=
  storeWriteInvalidateBoth c (st.delete itemID id)
    (itemPropertyCacheKey itemID id) (itemPropertiesListCacheKey itemID)

/-- Go `filepath.Base` on a Unix path: empty path gives `"."`;
trailing separators are stripped; if only separators remain the result
is `"/"`; otherwise the element after the last separator. -/
def goFilepathBase (path : String) : String :=
  if path = "" then "."
  else
    let rev := path.data.reverse.dropWhile (fun c => c == '/')
    if rev = [] then "/"
    else ⟨(rev.takeWhile (fun c => c != '/')).reverse⟩

/-- The `safeKey` computation of `fileCacheRepository.keyToFilename`:
`filepath.Base(key)`, substituting `"default"` when the base is `"."`
or `"/"`. -/
def safeCacheName (key : String) : String :=
  let base := goFilepathBase key
  if base = "." ∨ base = "/" then "default" else base

/-- Embeds `fileCacheRepository.keyToFilename`:
`filepath.Join(cacheDir, safeKey + ".cache")`.  The joined component is
always a plain non-empty separator-free name, so the join is plain
concatenation with `"/"`. -/
def keyToFilename (cacheDir key : String) : String :=
  cacheDir ++ "/" ++ safeCacheName key ++ ".cache"

/-- The on-disk record `cacheItem` of the file cache: value, absolute
expiry instant (model time as `Nat`), and the has-expiry flag. -/
structure FCacheItem where
  value : String
  expiresAt : Nat
  hasExpiry : Bool
deriving DecidableEq

/-- Content of one cache file as `json.Unmarshal` sees it: either a
well-formed `cacheItem` record or bytes on which decoding fails. -/
inductive FileData where
  | record (it : FCacheItem)
  | corrupt (raw : String)
deriving DecidableEq

/-- Embeds `fileCacheRepository`: the configured directory plus the files in
it (filename-indexed).  Filesystem I/O is modelled as reliable — the
claims under proof concern the repository's own logic, not I/O faults —
and the reader/writer lock is implicit in the sequential semantics. -/
structure FileCacheRepo where
  cacheDir : String
  files : List (String × FileData)
deriving DecidableEq

/-- Embeds `fileCacheRepository.Get` at instant `now`: absent file gives
`ErrCacheKeyNotFound`; a file whose bytes fail `json.Unmarshal`
propagates the decode error; an expired record (`HasExpiry` and
`time.Now().After(ExpiresAt)`, i.e. strictly after) gives
`ErrCacheExpired` (the expired file's asynchronous best-effort removal
is not observable through the claims and is not modelled); otherwise
the stored value. -/
def FileCacheRepo.Get (r : FileCacheRepo) (now : Nat) (key : String) : Except Err String :=
  match findVal (keyToFilename r.cacheDir key) r.files with
  | none => .error .keyNotFound
  | some (.corrupt _) => .error .decode
  | some (.record it) =>
    if it.hasExpiry = true ∧ it.expiresAt < now then .error .expired
    else .ok it.value

/-- Embeds `fileCacheRepository.Set` at instant `now`: writes the record with
`HasExpiry := ttl > 0` and, when positive, `ExpiresAt := now + ttl`
(Go's `time.Duration` is signed, hence `ttl : Int`). -/
def FileCacheRepo.Set (r : FileCacheRepo) (now : Nat) (key value : String) (ttl : Int) :
    FileCacheRepo :=
  let item : FCacheItem :=
    { value := value
      hasExpiry := decide (0 < ttl)
      expiresAt := if 0 < ttl then now + ttl.toNat else 0 }
  { r with files := setEntry (keyToFilename r.cacheDir key) (FileData.record item) r.files }

/-- Embeds `fileCacheRepository.Delete`: removes the file; absence is success. -/
def FileCacheRepo.Delete (r : FileCacheRepo) (key : String) : FileCacheRepo :=
  { r with files := delEntry (keyToFilename r.cacheDir key) r.files }

/-- Embeds `fileCacheRepository.Exists` at instant `now`: absent file reports
`(false, nil)`; a file that fails `json.Unmarshal` also reports
`(false, nil)`; an expired record reports `(false, nil)`; otherwise
`(true, nil)`. -/
def FileCacheRepo.existsKey (r : FileCacheRepo) (now : Nat) (key : String) : Except Err Bool :=
  match findVal (keyToFilename r.cacheDir key) r.files with
  | none => .ok false
  | some (.corrupt _) => .ok false
  | some (.record it) =>
    if it.hasExpiry = true ∧ it.expiresAt < now then .ok false
    else .ok true

/-- The cache port implementation the startup selector wires. -/
inductive CacheBackend where
  | redisBackend
  | fileBackend (cacheDir : String)
deriving DecidableEq

/-- Embeds `file.NewCacheRepository`: `os.MkdirAll(cacheDir, 0755)` first
(result passed in as `mkdirResult`), failing construction on its error,
otherwise returning the file-backed repository. -/
def fileNewCacheRepository (mkdirResult : Except Err Unit) (cacheDir : String) :
    Except Err CacheBackend :=
  match mkdirResult with
  | .error e => .error e
  | .ok _ => .ok (.fileBackend cacheDir)

/-- The bounded timeout (in seconds) of the startup Redis health probe
(`context.WithTimeout(..., 2*time.Second)`). -/
def redisPingTimeoutSecs : Nat := 2

/-- Embeds `di.NewCacheRepository`: probe Redis (`redisPing` is the probe's
outcome within the bounded timeout); on success wire the Redis backend;
on failure fall back to `file.NewCacheRepository`, whose own error is
the only fatal one. -/
def diNewCacheRepository (redisPing : Except Err Unit) (mkdirResult : Except Err Unit)
    (cacheDir : String) : Except Err CacheBackend :=
  match redisPing with
  | .ok _ => .ok .redisBackend
  | .error _ => fileNewCacheRepository mkdirResult cacheDir

/-- Separator-free strings: the ids of the §3 key namespace are
UUID-shaped and contain no path separator. -/
def slashFree (s : String) : Prop := '/' ∉ s.data

instance slashFreeDec (s : String) : Decidable (slashFree s) :=
  inferInstanceAs (Decidable ('/' ∉ s.data))

/-- The four key shapes of the §3 cache-key namespace, with
separator-free ids. -/
def isSpecKey (k : String) : Prop :=
  (∃ id, slashFree id ∧ k = itemCacheKey id) ∨
  k = itemsListCacheKey ∨
  (∃ a b, slashFree a ∧ slashFree b ∧ k = itemPropertyCacheKey a b) ∨
  (∃ a, slashFree a ∧ k = itemPropertiesListCacheKey a)

/-- Demo codec (stands in for `encoding/json` in concrete witnesses):
split on the separator character. -/
def splitSepAux : List Char → List Char → List String
  | [], acc => [⟨acc.reverse⟩]
  | c :: rest, acc =>
    if c = '|' then ⟨acc.reverse⟩ :: splitSepAux rest [] else splitSepAux rest (c :: acc)

/-- Splits a string at every separator character. -/
def splitSep (s : String) : List String := splitSepAux s.data []

/-- Demo item encoder for witnesses. -/
def demoMarshalItem (it : Item) : Option String :=
  some (it.id ++ "|" ++ it.title ++ "|" ++ it.description)

/-- Demo item decoder for witnesses. -/
def demoUnmarshalItem (s : String) : Option Item :=
  match splitSep s with
  | [a, b, c] => some { id := a, title := b, description := c }
  | _ => none

/-- Demo property encoder for witnesses. -/
def demoMarshalProp (p : ItemProperty) : Option String :=
  some (p.id ++ "|" ++ p.itemID ++ "|" ++ p.name ++ "|" ++ p.value)

/-- Demo property decoder for witnesses. -/
def demoUnmarshalProp (s : String) : Option ItemProperty :=
  match splitSep s with
  | [a, b, c, d] => some { id := a, itemID := b, name := c, value := d }
  | _ => none

/-- Concrete item used by witnesses. -/
def demoItem : Item := { id := "I1", title := "Widget", description := "" }

/-- Concrete property used by witnesses. -/
def demoProp : ItemProperty := { id := "P1", itemID := "I1", name := "n", value := "v" }

/-- Empty, failure-free cache double used by witnesses. -/
def demoCache : SvcCache :=
  { entries := [], failGet := false, failSet := false, failDelete := false }

/-- Healthy item store double used by witnesses. -/
def demoItemStore : ItemStore :=
  { getAll := .ok [demoItem]
    getByID := fun id => if id = "I1" then .ok demoItem else .error (.store "not found")
    create := fun _ => .ok ()
    update := fun _ => .ok ()
    delete := fun _ => .ok () }

/-- Item store double whose every operation fails, used by witnesses. -/
def demoItemStoreDown : ItemStore :=
  { getAll := .error (.store "boom")
    getByID := fun _ => .error (.store "boom")
    create := fun _ => .error (.store "boom")
    update := fun _ => .error (.store "boom")
    delete := fun _ => .error (.store "boom") }

/-- Healthy property store double used by witnesses. -/
def demoPropStore : PropStore :=
  { getAllByItemID := fun _ => .ok [demoProp]
    getByID := fun itemID id =>
      if itemID = "I1" ∧ id = "P1" then .ok demoProp else .error (.store "not found")
    create := fun _ => .ok ()
    update := fun _ => .ok ()
    delete := fun _ _ => .ok () }

/-- Property store double whose every operation fails, used by witnesses. -/
def demoPropStoreDown : PropStore :=
  { getAllByItemID := fun _ => .error (.store "boom")
    getByID := fun _ _ => .error (.store "boom")
    create := fun _ => .error (.store "boom")
    update := fun _ => .error (.store "boom")
    delete := fun _ _ => .error (.store "boom") }

/-- Cache double with every failure injected, used by witnesses. -/
def demoCacheAllFail : SvcCache :=
  { entries := [(itemCacheKey "I1", "I1|Widget|")], failGet := true,
    failSet := true, failDelete := true }

/-- Lookup after insert-or-overwrite at the same key yields the new value. -/
theorem findVal_setEntry_self {β : Type} (k : String) (v : β) :
    ∀ l : List (String × β), findVal k (setEntry k v l) = some v := by
  intro l
  induction l with
  | nil => simp [setEntry, findVal]
  | cons hd tl ih =>
    by_cases h : k = hd.1 <;> simp [setEntry, findVal, h, ih]

/-- Removing one key leaves lookups of any other key unchanged. -/
theorem findVal_delEntry_ne {β : Type} {k k' : String} (h : k ≠ k') :
    ∀ l : List (String × β), findVal k (delEntry k' l) = findVal k l := by
  intro l
  induction l with
  | nil => simp [delEntry]
  | cons hd tl ih =>
    obtain ⟨a, b⟩ := hd
    by_cases h1 : k' = a
    · subst h1
      simp [delEntry, findVal, h, ih]
    · simp only [delEntry, if_neg h1, findVal]
      by_cases h2 : k = a <;> simp [h2, ih]

/-- A cache `Get` with an injected failure makes the hit test fail. -/
theorem tryCacheHit_of_failGet {α : Type} (c : SvcCache) (key : String)
    (u : String → Option α) (h : c.failGet = true) :
    tryCacheHit (c.get key) u = none := by
  simp [SvcCache.get, h, tryCacheHit]

/-- A failure-free cache `Get` over an absent key makes the hit test fail. -/
theorem tryCacheHit_of_absent {α : Type} (c : SvcCache) (key : String)
    (u : String → Option α) (hg : c.failGet = false)
    (habs : findVal key c.entries = none) :
    tryCacheHit (c.get key) u = none := by
  simp [SvcCache.get, hg, habs, tryCacheHit]

/-- On a cache hit, `cachedRead` returns the cached entity, leaves the
cache untouched, and performs no store call. -/
theorem cachedRead_hit {α : Type} (c : SvcCache) (key : String)
    (storeCall : Except Err α) (m : α → Option String) (u : String → Option α)
    (v : String) (a : α) (hg : c.get key = .ok v) (hv : v ≠ "") (hu : u v = some a) :
    cachedRead c key storeCall m u = (.ok a, c, [.evGet key]) := by
  simp [cachedRead, tryCacheHit, hg, hv, hu]

/-- On a miss, `cachedRead`'s answer is exactly the store's answer. -/
theorem cachedRead_miss {α : Type} (c : SvcCache) (key : String)
    (storeCall : Except Err α) (m : α → Option String) (u : String → Option α)
    (h : tryCacheHit (c.get key) u = none) :
    (cachedRead c key storeCall m u).1 = storeCall := by
  simp only [cachedRead, h]
  cases storeCall with
  | error e => rfl
  | ok a => cases hma : m a <;> simp [hma]

/-- On a miss with a failing store, `cachedRead` returns the store
error untouched, mutates nothing, and attempts no cache write. -/
theorem cachedRead_miss_storeErr {α : Type} (c : SvcCache) (key : String)
    (m : α → Option String) (u : String → Option α) (e : Err)
    (h : tryCacheHit (c.get key) u = none) :
    cachedRead c key (.error e) m u = (.error e, c, [.evGet key, .evStore]) := by
  simp [cachedRead, h]

/-- A populating miss then a second read of the same key: the first
read hits the store; the second is served from the cache with no store
call and no cache mutation. -/
theorem cachedRead_second_read {α : Type} (c : SvcCache) (key : String)
    (storeCall : Except Err α) (m : α → Option String) (u : String → Option α)
    (a : α) (data : String)
    (hfg : c.failGet = false) (hfs : c.failSet = false)
    (habs : findVal key c.entries = none)
    (hst : storeCall = .ok a) (hm : m a = some data) (hd : data ≠ "")
    (hu : u data = some a) :
    Ev.evStore ∈ (cachedRead c key storeCall m u).2.2 ∧
    cachedRead (cachedRead c key storeCall m u).2.1 key storeCall m u =
      (.ok a, (cachedRead c key storeCall m u).2.1, [.evGet key]) := by
  have hmiss := tryCacheHit_of_absent c key u hfg habs
  have hrun : cachedRead c key storeCall m u =
      (.ok a, { c with entries := setEntry key data c.entries },
        [.evGet key, .evStore, .evSet key data]) := by
    simp [cachedRead, hmiss, hst, hm, SvcCache.set, hfs]
  constructor
  · rw [hrun]; simp
  · rw [hrun]
    exact cachedRead_hit _ key storeCall m u data a
      (by simp [SvcCache.get, hfg, findVal_setEntry_self]) hd hu

/-- A write combinator whose store call fails returns that error with
no cache mutation and no cache invocation. -/
theorem storeWriteInvalidateList_storeErr (c : SvcCache) (listKey : String) (e : Err) :
    storeWriteInvalidateList c (.error e) listKey = (.error e, c, [.evStore]) := rfl

/-- A write combinator whose store call fails returns that error with
no cache mutation and no cache invocation. -/
theorem storeWriteInvalidateBoth_storeErr (c : SvcCache) (entityKey listKey : String) (e : Err) :
    storeWriteInvalidateBoth c (.error e) entityKey listKey = (.error e, c, [.evStore]) := rfl

/-- A successful single-invalidation write deletes exactly the list key. -/
theorem storeWriteInvalidateList_ok (c : SvcCache) (listKey : String) :
    storeWriteInvalidateList c (.ok ()) listKey =
      (.ok (), (c.delete listKey).2, [.evStore, .evDel listKey]) := rfl

/-- A successful double-invalidation write deletes exactly the entity
key and then the list key. -/
theorem storeWriteInvalidateBoth_ok (c : SvcCache) (entityKey listKey : String) :
    storeWriteInvalidateBoth c (.ok ()) entityKey listKey =
      (.ok (), ((c.delete entityKey).2.delete listKey).2,
        [.evStore, .evDel entityKey, .evDel listKey]) := rfl

/-- A write combinator's answer is always exactly the store's answer,
whatever the cache double's failure flags. -/
theorem storeWriteInvalidateList_result (c : SvcCache) (storeCall : Except Err Unit)
    (listKey : String) : (storeWriteInvalidateList c storeCall listKey).1 = storeCall := by
  match storeCall with
  | .error e => rfl
  | .ok () => rfl

/-- A write combinator's answer is always exactly the store's answer,
whatever the cache double's failure flags. -/
theorem storeWriteInvalidateBoth_result (c : SvcCache) (storeCall : Except Err Unit)
    (entityKey listKey : String) :
    (storeWriteInvalidateBoth c storeCall entityKey listKey).1 = storeCall := by
  match storeCall with
  | .error e => rfl
  | .ok () => rfl

/-- Deleting one cache key leaves every other key's binding unchanged
(also under an injected delete failure). -/
theorem delete_preserves_other (c : SvcCache) (key k : String) (h : k ≠ key) :
    findVal k (c.delete key).2.entries = findVal k c.entries := by
  by_cases hf : c.failDelete <;> simp [SvcCache.delete, hf, findVal_delEntry_ne h]

/-- C1: cache-aside read correctness.  For each of the four reads, a
cache hit (get succeeds, value non-empty, value deserializes) returns
the cached entity with no store call and no cache mutation; any miss
returns exactly the store's result; and after a populating first read,
a second read of the same id with no intervening write is served from
the cache without hitting the store. -/
theorem C1_cache_aside_read :
    (∀ (c : SvcCache) (st : ItemStore) (id : String) m u (v : String) (it : Item),
      c.get (itemCacheKey id) = .ok v → v ≠ "" → u v = some it →
      GetItemByID c st id m u = (.ok it, c, [Ev.evGet (itemCacheKey id)])) ∧
    (∀ (c : SvcCache) (st : ItemStore) m u (v : String) (l : List Item),
      c.get itemsListCacheKey = .ok v → v ≠ "" → u v = some l →
      GetAllItems c st m u = (.ok l, c, [Ev.evGet itemsListCacheKey])) ∧
    (∀ (c : SvcCache) (st : PropStore) (itemID : String) m u (v : String)
        (l : List ItemProperty),
      c.get (itemPropertiesListCacheKey itemID) = .ok v → v ≠ "" → u v = some l →
      GetItemPropertiesByItemID c st itemID m u =
        (.ok l, c, [Ev.evGet (itemPropertiesListCacheKey itemID)])) ∧
    (∀ (c : SvcCache) (st : PropStore) (itemID id : String) m u (v : String)
        (p : ItemProperty),
      c.get (itemPropertyCacheKey itemID id) = .ok v → v ≠ "" → u v = some p →
      GetItemPropertyByID c st itemID id m u =
        (.ok p, c, [Ev.evGet (itemPropertyCacheKey itemID id)])) ∧
    (∀ (c : SvcCache) (st : ItemStore) (id : String) m u,
      tryCacheHit (c.get (itemCacheKey id)) u = none →
      (GetItemByID c st id m u).1 = st.getByID id) ∧
    (∀ (c : SvcCache) (st : ItemStore) m u,
      tryCacheHit (c.get itemsListCacheKey) u = none →
      (GetAllItems c st m u).1 = st.getAll) ∧
    (∀ (c : SvcCache) (st : PropStore) (itemID : String) m u,
      tryCacheHit (c.get (itemPropertiesListCacheKey itemID)) u = none →
      (GetItemPropertiesByItemID c st itemID m u).1 = st.getAllByItemID itemID) ∧
    (∀ (c : SvcCache) (st : PropStore) (itemID id : String) m u,
      tryCacheHit (c.get (itemPropertyCacheKey itemID id)) u = none →
      (GetItemPropertyByID c st itemID id m u).1 = st.getByID itemID id) ∧
    (∀ (c : SvcCache) (st : ItemStore) (id : String) m u (it : Item) (data : String),
      c.failGet = false → c.failSet = false →
      findVal (itemCacheKey id) c.entries = none →
      st.getByID id = .ok it → m it = some data → data ≠ "" → u data = some it →
      Ev.evStore ∈ (GetItemByID c st id m u).2.2 ∧
      GetItemByID (GetItemByID c st id m u).2.1 st id m u =
        (.ok it, (GetItemByID c st id m u).2.1, [Ev.evGet (itemCacheKey id)])) ∧
    (∀ (c : SvcCache) (st : PropStore) (itemID id : String) m u (p : ItemProperty)
        (data : String),
      c.failGet = false → c.failSet = false →
      findVal (itemPropertyCacheKey itemID id) c.entries = none →
      st.getByID itemID id = .ok p → m p = some data → data ≠ "" → u data = some p →
      Ev.evStore ∈ (GetItemPropertyByID c st itemID id m u).2.2 ∧
      GetItemPropertyByID (GetItemPropertyByID c st itemID id m u).2.1 st itemID id m u =
        (.ok p, (GetItemPropertyByID c st itemID id m u).2.1,
          [Ev.evGet (itemPropertyCacheKey itemID id)])) := by
  refine ⟨?_, ?_, ?_, ?_, ?_, ?_, ?_, ?_, ?_, ?_⟩
  · intro c st id m u v it hg hv hu
    exact cachedRead_hit c _ _ m u v it hg hv hu
  · intro c st m u v l hg hv hu
    exact cachedRead_hit c _ _ m u v l hg hv hu
  · intro c st itemID m u v l hg hv hu
    exact cachedRead_hit c _ _ m u v l hg hv hu
  · intro c st itemID id m u v p hg hv hu
    exact cachedRead_hit c _ _ m u v p hg hv hu
  · intro c st id m u h
    exact cachedRead_miss c _ _ m u h
  · intro c st m u h
    exact cachedRead_miss c _ _ m u h
  · intro c st itemID m u h
    exact cachedRead_miss c _ _ m u h
  · intro c st itemID id m u h
    exact cachedRead_miss c _ _ m u h
  · intro c st id m u it data hfg hfs habs hst hm hd hu
    exact cachedRead_second_read c _ _ m u it data hfg hfs habs hst hm hd hu
  · intro c st itemID id m u p data hfg hfs habs hst hm hd hu
    exact cachedRead_second_read c _ _ m u p data hfg hfs habs hst hm hd hu

/-- Witness for C1: a concrete populating first read of item `I1`
followed by a second read served from the cache. -/
theorem C1_cache_aside_read_witness :
    demoCache.failGet = false ∧ demoCache.failSet = false ∧
    findVal (itemCacheKey "I1") demoCache.entries = none ∧
    demoItemStore.getByID "I1" = .ok demoItem ∧
    demoMarshalItem demoItem = some "I1|Widget|" ∧ ("I1|Widget|" : String) ≠ "" ∧
    demoUnmarshalItem "I1|Widget|" = some demoItem ∧
    (Ev.evStore ∈
        (GetItemByID demoCache demoItemStore "I1" demoMarshalItem demoUnmarshalItem).2.2 ∧
      GetItemByID
          (GetItemByID demoCache demoItemStore "I1" demoMarshalItem demoUnmarshalItem).2.1
          demoItemStore "I1" demoMarshalItem demoUnmarshalItem =
        (.ok demoItem,
          (GetItemByID demoCache demoItemStore "I1" demoMarshalItem demoUnmarshalItem).2.1,
          [Ev.evGet (itemCacheKey "I1")])) := by
  refine ⟨by decide, by decide, by decide, by rfl, by decide, by decide, by decide, ?_⟩
  exact C1_cache_aside_read.2.2.2.2.2.2.2.2.1 demoCache demoItemStore "I1"
    demoMarshalItem demoUnmarshalItem demoItem "I1|Widget|"
    (by decide) (by decide) (by decide) (by rfl) (by decide) (by decide) (by decide)

/-- C2: store-failure atomicity.  Every service operation whose store
call fails returns that store error unchanged, leaves the cache state
untouched, and attempts no cache `Set` and no cache `Delete` (the read
paths had already issued only their cache `Get`). -/
theorem C2_store_failure_atomicity :
    (∀ (c : SvcCache) (st : ItemStore) (id : String) m u (e : Err),
      tryCacheHit (c.get (itemCacheKey id)) u = none → st.getByID id = .error e →
      GetItemByID c st id m u = (.error e, c, [Ev.evGet (itemCacheKey id), Ev.evStore])) ∧
    (∀ (c : SvcCache) (st : ItemStore) m u (e : Err),
      tryCacheHit (c.get itemsListCacheKey) u = none → st.getAll = .error e →
      GetAllItems c st m u = (.error e, c, [Ev.evGet itemsListCacheKey, Ev.evStore])) ∧
    (∀ (c : SvcCache) (st : PropStore) (itemID : String) m u (e : Err),
      tryCacheHit (c.get (itemPropertiesListCacheKey itemID)) u = none →
      st.getAllByItemID itemID = .error e →
      GetItemPropertiesByItemID c st itemID m u =
        (.error e, c, [Ev.evGet (itemPropertiesListCacheKey itemID), Ev.evStore])) ∧
    (∀ (c : SvcCache) (st : PropStore) (itemID id : String) m u (e : Err),
      tryCacheHit (c.get (itemPropertyCacheKey itemID id)) u = none →
      st.getByID itemID id = .error e →
      GetItemPropertyByID c st itemID id m u =
        (.error e, c, [Ev.evGet (itemPropertyCacheKey itemID id), Ev.evStore])) ∧
    (∀ (c : SvcCache) (st : ItemStore) (it : Item) (e : Err),
      st.create it = .error e → CreateItem c st it = (.error e, c, [Ev.evStore])) ∧
    (∀ (c : SvcCache) (st : ItemStore) (it : Item) (e : Err),
      st.update it = .error e → UpdateItem c st it = (.error e, c, [Ev.evStore])) ∧
    (∀ (c : SvcCache) (st : ItemStore) (id : String) (e : Err),
      st.delete id = .error e → DeleteItem c st id = (.error e, c, [Ev.evStore])) ∧
    (∀ (c : SvcCache) (st : PropStore) (p : ItemProperty) (e : Err),
      st.create p = .error e → CreateItemProperty c st p = (.error e, c, [Ev.evStore])) ∧
    (∀ (c : SvcCache) (st : PropStore) (p : ItemProperty) (e : Err),
      st.update p = .error e → UpdateItemProperty c st p = (.error e, c, [Ev.evStore])) ∧
    (∀ (c : SvcCache) (st : PropStore) (itemID id : String) (e : Err),
      st.delete itemID id = .error e →
      DeleteItemProperty c st itemID id = (.error e, c, [Ev.evStore])) := by
  refine ⟨?_, ?_, ?_, ?_, ?_, ?_, ?_, ?_, ?_, ?_⟩
  · intro c st id m u e hmiss hst
    have := cachedRead_miss_storeErr c (itemCacheKey id) m u e hmiss
    simpa [GetItemByID, hst] using this
  · intro c st m u e hmiss hst
    have := cachedRead_miss_storeErr c itemsListCacheKey m u e hmiss
    simpa [GetAllItems, hst] using this
  · intro c st itemID m u e hmiss hst
    have := cachedRead_miss_storeErr c (itemPropertiesListCacheKey itemID) m u e hmiss
    simpa [GetItemPropertiesByItemID, hst] using this
  · intro c st itemID id m u e hmiss hst
    have := cachedRead_miss_storeErr c (itemPropertyCacheKey itemID id) m u e hmiss
    simpa [GetItemPropertyByID, hst] using this
  · intro c st it e hst
    simp [CreateItem, hst, storeWriteInvalidateList]
  · intro c st it e hst
    simp [UpdateItem, hst, storeWriteInvalidateBoth]
  · intro c st id e hst
    simp [DeleteItem, hst, storeWriteInvalidateBoth]
  · intro c st p e hst
    simp [CreateItemProperty, hst, storeWriteInvalidateList]
  · intro c st p e hst
    simp [UpdateItemProperty, hst, storeWriteInvalidateBoth]
  · intro c st itemID id e hst
    simp [DeleteItemProperty, hst, storeWriteInvalidateBoth]

/-- Witness for C2: a concrete failing store update leaves the cache
untouched and performs no cache invalidation, and a concrete failing
store read on a cache miss propagates the error. -/
theorem C2_store_failure_atomicity_witness :
    demoItemStoreDown.update demoItem = .error (.store "boom") ∧
    UpdateItem demoCache demoItemStoreDown demoItem =
      (.error (.store "boom"), demoCache, [Ev.evStore]) ∧
    tryCacheHit (demoCache.get (itemCacheKey "I1")) demoUnmarshalItem = none ∧
    demoItemStoreDown.getByID "I1" = .error (.store "boom") ∧
    GetItemByID demoCache demoItemStoreDown "I1" demoMarshalItem demoUnmarshalItem =
      (.error (.store "boom"), demoCache, [Ev.evGet (itemCacheKey "I1"), Ev.evStore]) := by
  refine ⟨by rfl, ?_, by decide, by rfl, ?_⟩
  · exact C2_store_failure_atomicity.2.2.2.2.2.1 demoCache demoItemStoreDown demoItem
      (.store "boom") (by rfl)
  · exact C2_store_failure_atomicity.1 demoCache demoItemStoreDown "I1"
      demoMarshalItem demoUnmarshalItem (.store "boom") (by decide) (by rfl)

/-- C3: update/delete double invalidation.  After a successful store
update or delete, each of the four operations deletes exactly the
single-entity key and the relevant list key, in that order, with no
other cache write. -/
theorem C3_double_invalidation :
    (∀ (c : SvcCache) (st : ItemStore) (it : Item), st.update it = .ok () →
      UpdateItem c st it =
        (.ok (), ((c.delete (itemCacheKey it.id)).2.delete itemsListCacheKey).2,
          [Ev.evStore, Ev.evDel (itemCacheKey it.id), Ev.evDel itemsListCacheKey])) ∧
    (∀ (c : SvcCache) (st : ItemStore) (id : String), st.delete id = .ok () →
      DeleteItem c st id =
        (.ok (), ((c.delete (itemCacheKey id)).2.delete itemsListCacheKey).2,
          [Ev.evStore, Ev.evDel (itemCacheKey id), Ev.evDel itemsListCacheKey])) ∧
    (∀ (c : SvcCache) (st : PropStore) (p : ItemProperty), st.update p = .ok () →
      UpdateItemProperty c st p =
        (.ok (), ((c.delete (itemPropertyCacheKey p.itemID p.id)).2.delete
            (itemPropertiesListCacheKey p.itemID)).2,
          [Ev.evStore, Ev.evDel (itemPropertyCacheKey p.itemID p.id),
            Ev.evDel (itemPropertiesListCacheKey p.itemID)])) ∧
    (∀ (c : SvcCache) (st : PropStore) (itemID id : String), st.delete itemID id = .ok () →
      DeleteItemProperty c st itemID id =
        (.ok (), ((c.delete (itemPropertyCacheKey itemID id)).2.delete
            (itemPropertiesListCacheKey itemID)).2,
          [Ev.evStore, Ev.evDel (itemPropertyCacheKey itemID id),
            Ev.evDel (itemPropertiesListCacheKey itemID)])) := by
  refine ⟨?_, ?_, ?_, ?_⟩
  · intro c st it h
    rw [UpdateItem, h]
    exact storeWriteInvalidateBoth_ok c _ _
  · intro c st id h
    rw [DeleteItem, h]
    exact storeWriteInvalidateBoth_ok c _ _
  · intro c st p h
    rw [UpdateItemProperty, h]
    exact storeWriteInvalidateBoth_ok c _ _
  · intro c st itemID id h
    rw [DeleteItemProperty, h]
    exact storeWriteInvalidateBoth_ok c _ _

/-- Witness for C3: a concrete successful update of item `I1` deletes
exactly `item:I1` and `items:list`. -/
theorem C3_double_invalidation_witness :
    demoItemStore.update demoItem = .ok () ∧
    UpdateItem demoCache demoItemStore demoItem =
      (.ok (), ((demoCache.delete (itemCacheKey "I1")).2.delete itemsListCacheKey).2,
        [Ev.evStore, Ev.evDel (itemCacheKey "I1"), Ev.evDel itemsListCacheKey]) := by
  refine ⟨by rfl, ?_⟩
  exact C3_double_invalidation.1 demoCache demoItemStore demoItem (by rfl)

/-- C4: create invalidation scope.  A successful property create
deletes only `item_properties:list:<item-id>`; every other cache key
(in particular any single-property key and any other item's list key)
keeps its binding.  Likewise a successful item create deletes only
`items:list`. -/
theorem C4_create_invalidation_scope :
    (∀ (c : SvcCache) (st : PropStore) (p : ItemProperty), st.create p = .ok () →
      CreateItemProperty c st p =
        (.ok (), (c.delete (itemPropertiesListCacheKey p.itemID)).2,
          [Ev.evStore, Ev.evDel (itemPropertiesListCacheKey p.itemID)])) ∧
    (∀ (c : SvcCache) (st : PropStore) (p : ItemProperty) (k : String),
      st.create p = .ok () → k ≠ itemPropertiesListCacheKey p.itemID →
      findVal k (CreateItemProperty c st p).2.1.entries = findVal k c.entries) ∧
    (∀ (c : SvcCache) (st : ItemStore) (it : Item), st.create it = .ok () →
      CreateItem c st it =
        (.ok (), (c.delete itemsListCacheKey).2,
          [Ev.evStore, Ev.evDel itemsListCacheKey])) ∧
    (∀ (c : SvcCache) (st : ItemStore) (it : Item) (k : String),
      st.create it = .ok () → k ≠ itemsListCacheKey →
      findVal k (CreateItem c st it).2.1.entries = findVal k c.entries) := by
  refine ⟨?_, ?_, ?_, ?_⟩
  · intro c st p h
    rw [CreateItemProperty, h]
    exact storeWriteInvalidateList_ok c _
  · intro c st p k h hk
    rw [CreateItemProperty, h, storeWriteInvalidateList_ok c _]
    exact delete_preserves_other c _ k hk
  · intro c st it h
    rw [CreateItem, h]
    exact storeWriteInvalidateList_ok c _
  · intro c st it k h hk
    rw [CreateItem, h, storeWriteInvalidateList_ok c _]
    exact delete_preserves_other c _ k hk

/-- Witness for C4: a concrete successful create of a property of item
`I1` deletes only `item_properties:list:I1` and leaves the cached list
of item `I2` untouched. -/
theorem C4_create_invalidation_scope_witness :
    demoPropStore.create demoProp = .ok () ∧
    CreateItemProperty demoCache demoPropStore demoProp =
      (.ok (), (demoCache.delete (itemPropertiesListCacheKey "I1")).2,
        [Ev.evStore, Ev.evDel (itemPropertiesListCacheKey "I1")]) ∧
    itemPropertiesListCacheKey "I2" ≠ itemPropertiesListCacheKey "I1" ∧
    findVal (itemPropertiesListCacheKey "I2")
        (CreateItemProperty demoCache demoPropStore demoProp).2.1.entries =
      findVal (itemPropertiesListCacheKey "I2") demoCache.entries := by
  refine ⟨by rfl, ?_, by decide, ?_⟩
  · exact C4_create_invalidation_scope.1 demoCache demoPropStore demoProp (by rfl)
  · exact C4_create_invalidation_scope.2.1 demoCache demoPropStore demoProp
      (itemPropertiesListCacheKey "I2") (by rfl) (by decide)

/-- C5: cache failures are never surfaced.  An injected cache `Get`
failure forces the miss path; on any miss each read's answer is
exactly the store's answer (whatever the `Set` failure flag); and each
write's answer is exactly the store's answer for every cache double
(whatever the `Delete` failure flag), so only store failures reach the
caller. -/
theorem C5_cache_failures_not_surfaced :
    (∀ (c : SvcCache) (key : String) (u : String → Option Item),
      c.failGet = true → tryCacheHit (c.get key) u = none) ∧
    (∀ (c : SvcCache) (st : ItemStore) (id : String) m u,
      tryCacheHit (c.get (itemCacheKey id)) u = none →
      (GetItemByID c st id m u).1 = st.getByID id) ∧
    (∀ (c : SvcCache) (st : ItemStore) m u,
      tryCacheHit (c.get itemsListCacheKey) u = none →
      (GetAllItems c st m u).1 = st.getAll) ∧
    (∀ (c : SvcCache) (st : PropStore) (itemID : String) m u,
      tryCacheHit (c.get (itemPropertiesListCacheKey itemID)) u = none →
      (GetItemPropertiesByItemID c st itemID m u).1 = st.getAllByItemID itemID) ∧
    (∀ (c : SvcCache) (st : PropStore) (itemID id : String) m u,
      tryCacheHit (c.get (itemPropertyCacheKey itemID id)) u = none →
      (GetItemPropertyByID c st itemID id m u).1 = st.getByID itemID id) ∧
    (∀ (c : SvcCache) (st : ItemStore) (it : Item),
      (CreateItem c st it).1 = st.create it) ∧
    (∀ (c : SvcCache) (st : ItemStore) (it : Item),
      (UpdateItem c st it).1 = st.update it) ∧
    (∀ (c : SvcCache) (st : ItemStore) (id : String),
      (DeleteItem c st id).1 = st.delete id) ∧
    (∀ (c : SvcCache) (st : PropStore) (p : ItemProperty),
      (CreateItemProperty c st p).1 = st.create p) ∧
    (∀ (c : SvcCache) (st : PropStore) (p : ItemProperty),
      (UpdateItemProperty c st p).1 = st.update p) ∧
    (∀ (c : SvcCache) (st : PropStore) (itemID id : String),
      (DeleteItemProperty c st itemID id).1 = st.delete itemID id) := by
  refine ⟨?_, ?_, ?_, ?_, ?_, ?_, ?_, ?_, ?_, ?_, ?_⟩
  · intro c key u h
    exact tryCacheHit_of_failGet c key u h
  · intro c st id m u h
    exact cachedRead_miss c _ _ m u h
  · intro c st m u h
    exact cachedRead_miss c _ _ m u h
  · intro c st itemID m u h
    exact cachedRead_miss c _ _ m u h
  · intro c st itemID id m u h
    exact cachedRead_miss c _ _ m u h
  · intro c st it
    exact storeWriteInvalidateList_result c _ _
  · intro c st it
    exact storeWriteInvalidateBoth_result c _ _ _
  · intro c st id
    exact storeWriteInvalidateBoth_result c _ _ _
  · intro c st p
    exact storeWriteInvalidateList_result c _ _
  · intro c st p
    exact storeWriteInvalidateBoth_result c _ _ _
  · intro c st itemID id
    exact storeWriteInvalidateBoth_result c _ _ _

/-- Witness for C5: with every cache failure injected, a concrete read
still returns the store's answer and a concrete update still returns
success. -/
theorem C5_cache_failures_not_surfaced_witness :
    demoCacheAllFail.failGet = true ∧
    tryCacheHit (demoCacheAllFail.get (itemCacheKey "I1"))
      demoUnmarshalItem = none ∧
    (GetItemByID demoCacheAllFail demoItemStore "I1" demoMarshalItem demoUnmarshalItem).1 =
      demoItemStore.getByID "I1" ∧
    (UpdateItem demoCacheAllFail demoItemStore demoItem).1 = demoItemStore.update demoItem := by
  refine ⟨by decide, ?_, ?_, ?_⟩
  · exact C5_cache_failures_not_surfaced.1 demoCacheAllFail (itemCacheKey "I1")
      demoUnmarshalItem (by decide)
  · exact C5_cache_failures_not_surfaced.2.1 demoCacheAllFail demoItemStore "I1"
      demoMarshalItem demoUnmarshalItem
      (C5_cache_failures_not_surfaced.1 demoCacheAllFail (itemCacheKey "I1")
        demoUnmarshalItem (by decide))
  · exact C5_cache_failures_not_surfaced.2.2.2.2.2.2.1 demoCacheAllFail demoItemStore demoItem

/-- C6: TTL semantics of the disk-backed cache.  A value set with
`ttl = 0` is returned by `Get` at every later instant (no recorded
expiration, never expires); a value set with `ttl > 0` read strictly
after the expiry instant fails as expired, and `Exists` at the same
instant reports false. -/
theorem C6_file_cache_ttl :
    (∀ (r : FileCacheRepo) (now : Nat) (key value : String) (t : Nat),
      (r.Set now key value 0).Get t key = .ok value) ∧
    (∀ (r : FileCacheRepo) (now : Nat) (key value : String) (ttl : Int), 0 < ttl →
      ∀ t : Nat, now + ttl.toNat < t →
        (r.Set now key value ttl).Get t key = .error .expired ∧
        (r.Set now key value ttl).existsKey t key = .ok false) := by
  constructor
  · intro r now key value t
    simp [FileCacheRepo.Set, FileCacheRepo.Get, findVal_setEntry_self]
  · intro r now key value ttl httl t ht
    constructor
    · simp [FileCacheRepo.Set, FileCacheRepo.Get, findVal_setEntry_self, httl, ht]
    · simp [FileCacheRepo.Set, FileCacheRepo.existsKey, findVal_setEntry_self, httl, ht]

/-- Witness for C6: a concrete entry set at instant 0 with TTL 5 is
expired and absent at instant 10, while a TTL-0 entry set at instant 0
is still served at instant 1000. -/
theorem C6_file_cache_ttl_witness :
    ((0 : Int) < 5) ∧ (0 + (5 : Int).toNat < 10) ∧
    ((FileCacheRepo.Set ⟨"d", []⟩ 0 "k" "v" 5).Get 10 "k" = .error .expired ∧
      (FileCacheRepo.Set ⟨"d", []⟩ 0 "k" "v" 5).existsKey 10 "k" = .ok false) ∧
    (FileCacheRepo.Set ⟨"d", []⟩ 0 "k" "v" 0).Get 1000 "k" = .ok "v" := by
  refine ⟨by decide, by decide, ?_, ?_⟩
  · exact C6_file_cache_ttl.2 ⟨"d", []⟩ 0 "k" "v" 5 (by decide) 10 (by decide)
  · exact C6_file_cache_ttl.1 ⟨"d", []⟩ 0 "k" "v" 1000

/-- Counterexample to C7 as stated: a stored record the backend cannot
deserialize makes `Get` return the decode error itself, which is
neither the not-found nor the expired sentinel, rather than a
NotFound-equivalent error. -/
theorem C7_counterexample :
    FileCacheRepo.Get ⟨"d", [(keyToFilename "d" "k", FileData.corrupt "xx")]⟩ 0 "k" =
      .error .decode ∧
    Err.decode ≠ Err.keyNotFound ∧ Err.decode ≠ Err.expired := by
  exact ⟨by rfl, by decide, by decide⟩

/-- C7 (amended): `Get` fails with a NotFound-kind error (the
not-found or expired sentinel) exactly when the key's file is absent or
its recorded expiration has passed; a stored record that fails
deserialization instead propagates the decode error to the caller. -/
theorem C7_get_not_found_semantics :
    ∀ (r : FileCacheRepo) (now : Nat) (key : String),
      ((r.Get now key = .error .keyNotFound ∨ r.Get now key = .error .expired) ↔
        (findVal (keyToFilename r.cacheDir key) r.files = none ∨
          ∃ it, findVal (keyToFilename r.cacheDir key) r.files = some (.record it) ∧
            it.hasExpiry = true ∧ it.expiresAt < now)) ∧
      (∀ raw, findVal (keyToFilename r.cacheDir key) r.files = some (.corrupt raw) →
        r.Get now key = .error .decode ∧ Err.decode ≠ Err.keyNotFound ∧
          Err.decode ≠ Err.expired) := by
  intro r now key
  constructor
  · cases hf : findVal (keyToFilename r.cacheDir key) r.files with
    | none => simp [FileCacheRepo.Get, hf]
    | some fd =>
      cases fd with
      | corrupt raw => simp [FileCacheRepo.Get, hf]
      | record it =>
        by_cases hcond : it.hasExpiry = true ∧ it.expiresAt < now
        · have hg : r.Get now key = .error .expired := by
            simp [FileCacheRepo.Get, hf, hcond]
          rw [hg]
          simp [hf, hcond]
        · have hg : r.Get now key = .ok it.value := by
            simp [FileCacheRepo.Get, hf, hcond]
          rw [hg]
          simp [hf]
          intro h1
          exact Nat.le_of_not_lt (fun h2 => hcond ⟨h1, h2⟩)
  · intro raw hf
    exact ⟨by simp [FileCacheRepo.Get, hf], by decide, by decide⟩

/-- Witness for C7 (amended): a concrete corrupt record at key `k2`
makes `Get` propagate the decode error. -/
theorem C7_get_not_found_semantics_witness :
    findVal (keyToFilename "e" "k2")
        (⟨"e", [(keyToFilename "e" "k2", FileData.corrupt "yy")]⟩ : FileCacheRepo).files =
      some (.corrupt "yy") ∧
    (FileCacheRepo.Get ⟨"e", [(keyToFilename "e" "k2", FileData.corrupt "yy")]⟩ 3 "k2" =
        .error .decode ∧
      Err.decode ≠ Err.keyNotFound ∧ Err.decode ≠ Err.expired) := by
  refine ⟨by rfl, ?_⟩
  exact (C7_get_not_found_semantics
    ⟨"e", [(keyToFilename "e" "k2", FileData.corrupt "yy")]⟩ 3 "k2").2 "yy" (by rfl)

/-- C10: Get/Exists asymmetry on corrupt records.  When the stored
file exists but fails deserialization, `Exists` reports the key absent
with no error while `Get` returns the deserialization error itself
(neither the not-found nor the expired sentinel). -/
theorem C10_exists_get_asymmetry :
    ∀ (r : FileCacheRepo) (now : Nat) (key raw : String),
      findVal (keyToFilename r.cacheDir key) r.files = some (.corrupt raw) →
      r.existsKey now key = .ok false ∧ r.Get now key = .error .decode ∧
        Err.decode ≠ Err.keyNotFound ∧ Err.decode ≠ Err.expired := by
  intro r now key raw hf
  exact ⟨by simp [FileCacheRepo.existsKey, hf], by simp [FileCacheRepo.Get, hf],
    by decide, by decide⟩

/-- Witness for C10: a concrete corrupt record at key `k3`. -/
theorem C10_exists_get_asymmetry_witness :
    findVal (keyToFilename "f" "k3")
        (⟨"f", [(keyToFilename "f" "k3", FileData.corrupt "zz")]⟩ : FileCacheRepo).files =
      some (.corrupt "zz") ∧
    ((⟨"f", [(keyToFilename "f" "k3", FileData.corrupt "zz")]⟩ : FileCacheRepo).existsKey
        7 "k3" = .ok false ∧
      FileCacheRepo.Get ⟨"f", [(keyToFilename "f" "k3", FileData.corrupt "zz")]⟩ 7 "k3" =
        .error .decode ∧
      Err.decode ≠ Err.keyNotFound ∧ Err.decode ≠ Err.expired) := by
  refine ⟨by rfl, ?_⟩
  exact C10_exists_get_asymmetry
    ⟨"f", [(keyToFilename "f" "k3", FileData.corrupt "zz")]⟩ 7 "k3" "zz" (by rfl)

/-- C9: startup backend selection.  A failed Redis probe with a
successful storage-directory creation yields the disk-backed cache; a
failed probe with a failed directory creation is the only fatal case
and surfaces that error; a successful probe yields the Redis backend;
the probe runs under the bounded 2-second timeout. -/
theorem C9_backend_selection :
    (∀ (pe : Err) (dir : String),
      diNewCacheRepository (.error pe) (.ok ()) dir = .ok (.fileBackend dir)) ∧
    (∀ (pe me : Err) (dir : String),
      diNewCacheRepository (.error pe) (.error me) dir = .error me) ∧
    (∀ (mk : Except Err Unit) (dir : String),
      diNewCacheRepository (.ok ()) mk dir = .ok .redisBackend) ∧
    (∀ (ping mk : Except Err Unit) (dir : String) (e : Err),
      diNewCacheRepository ping mk dir = .error e →
      (∃ pe, ping = .error pe) ∧ mk = .error e) ∧
    redisPingTimeoutSecs = 2 := by
  refine ⟨fun pe dir => rfl, fun pe me dir => rfl, fun mk dir => rfl, ?_, rfl⟩
  intro ping mk dir e h
  cases ping with
  | ok u => cases u; simp [diNewCacheRepository] at h
  | error pe =>
    cases mk with
    | ok u => cases u; simp [diNewCacheRepository, fileNewCacheRepository] at h
    | error me =>
      simp only [diNewCacheRepository, fileNewCacheRepository, Except.error.injEq] at h
      exact ⟨⟨pe, rfl⟩, by rw [h]⟩

/-- Witness for C9: a concrete unreachable Redis with a failing mkdir
surfaces exactly the mkdir error, and with a succeeding mkdir yields
the disk-backed cache. -/
theorem C9_backend_selection_witness :
    diNewCacheRepository (.error .backendDown) (.error (.store "mkdir failed")) "d" =
      .error (.store "mkdir failed") ∧
    ((∃ pe, (.error .backendDown : Except Err Unit) = .error pe) ∧
      (.error (.store "mkdir failed") : Except Err Unit) = .error (.store "mkdir failed")) ∧
    diNewCacheRepository (.error .backendDown) (.ok ()) "d" = .ok (.fileBackend "d") := by
  refine ⟨by rfl, ?_, ?_⟩
  · exact C9_backend_selection.2.2.2.1 (.error .backendDown)
      (.error (.store "mkdir failed")) "d" (.store "mkdir failed") (by rfl)
  · exact C9_backend_selection.1 .backendDown "d"

/-- Characters of a `takeWhile` result satisfy the predicate. -/
theorem sat_of_mem_takeWhile {p : Char → Bool} :
    ∀ (l : List Char) (c : Char), c ∈ l.takeWhile p → p c = true := by
  intro l
  induction l with
  | nil => intro c hc; simp at hc
  | cons a t ih =>
    intro c hc
    cases hpa : p a with
    | true =>
      rw [List.takeWhile_cons_of_pos hpa] at hc
      rcases List.mem_cons.mp hc with h | h
      · exact h ▸ hpa
      · exact ih c h
    | false =>
      rw [List.takeWhile_cons_of_neg (by simp [hpa])] at hc
      simp at hc

/-- Lemma: `takeWhile` keeps everything when every character satisfies the
predicate. -/
theorem takeWhile_all {p : Char → Bool} :
    ∀ l : List Char, (∀ c ∈ l, p c = true) → l.takeWhile p = l := by
  intro l
  induction l with
  | nil => intro _; rfl
  | cons a t ih =>
    intro h
    rw [List.takeWhile_cons_of_pos (h a (List.mem_cons_self a t)),
      ih (fun c hc => h c (List.mem_cons_of_mem a hc))]

/-- Lemma: `dropWhile` keeps everything when no character satisfies the
predicate. -/
theorem dropWhile_none {p : Char → Bool} :
    ∀ l : List Char, (∀ c ∈ l, p c = false) → l.dropWhile p = l := by
  intro l
  induction l with
  | nil => intro _; rfl
  | cons a t ih =>
    intro h
    exact List.dropWhile_cons_of_neg (by simp [h a (List.mem_cons_self a t)])

/-- The head of a non-empty `dropWhile` result fails the predicate. -/
theorem head_dropWhile_false {p : Char → Bool} :
    ∀ (l : List Char) (a : Char) (t : List Char), l.dropWhile p = a :: t → p a = false := by
  intro l
  induction l with
  | nil => intro a t h; simp at h
  | cons b r ih =>
    intro a t h
    cases hpb : p b with
    | true => rw [List.dropWhile_cons_of_pos hpb] at h; exact ih a t h
    | false =>
      rw [List.dropWhile_cons_of_neg (by simp [hpb])] at h
      injection h with h1 h2
      exact h1 ▸ hpb

/-- Lemma: `filepath.Base` of a non-empty separator-free string is the string
itself. -/
theorem goFilepathBase_of_slashFree (k : String) (hne : k ≠ "") (hsf : slashFree k) :
    goFilepathBase k = k := by
  have hd : k.data ≠ [] := fun h => hne (String.ext h)
  have hrevchar : ∀ c ∈ k.data.reverse, (c == '/') = false := by
    intro c hc
    rw [List.mem_reverse] at hc
    exact beq_eq_false_iff_ne.mpr (fun h => hsf (h ▸ hc))
  have htake : ∀ c ∈ k.data.reverse, (c != '/') = true := by
    intro c hc
    rw [List.mem_reverse] at hc
    exact bne_iff_ne.mpr (fun h => hsf (h ▸ hc))
  unfold goFilepathBase
  rw [if_neg hne, dropWhile_none _ hrevchar,
    if_neg (by simpa using hd), takeWhile_all _ htake, List.reverse_reverse]

/-- Lemma: `filepath.Base` always yields `"."`, `"/"`, or a non-empty
separator-free name. -/
theorem goFilepathBase_shape (k : String) :
    goFilepathBase k = "." ∨ goFilepathBase k = "/" ∨
      (goFilepathBase k ≠ "" ∧ slashFree (goFilepathBase k)) := by
  by_cases hne : k = ""
  · left; simp [goFilepathBase, hne]
  · cases hdrop : k.data.reverse.dropWhile (fun c => c == '/') with
    | nil =>
      right; left
      simp [goFilepathBase, hne, hdrop]
    | cons a t =>
      right; right
      have hpa : (a == '/') = false := head_dropWhile_false _ a t hdrop
      have hpa2 : (a != '/') = true := by simp [bne, hpa]
      have ht : List.takeWhile (fun c => c != '/') (a :: t) =
          a :: List.takeWhile (fun c => c != '/') t := by
        simp [List.takeWhile_cons, hpa2]
      have hbase : goFilepathBase k = ⟨((a :: t).takeWhile (fun c => c != '/')).reverse⟩ := by
        simp [goFilepathBase, hne, hdrop]
      rw [hbase, ht]
      constructor
      · intro h
        have h2 : (a :: List.takeWhile (fun c => c != '/') t).reverse = ([] : List Char) :=
          congrArg String.data h
        simp at h2
      · intro hc
        have hc2 : '/' ∈ (a :: List.takeWhile (fun c => c != '/') t).reverse := hc
        rw [List.mem_reverse] at hc2
        rcases List.mem_cons.mp hc2 with h | h
        · rw [← h] at hpa2; simp at hpa2
        · have := sat_of_mem_takeWhile t '/' h
          simp at this

/-- The safe component of `keyToFilename` is always non-empty and
separator-free. -/
theorem safeCacheName_props (key : String) :
    safeCacheName key ≠ "" ∧ slashFree (safeCacheName key) := by
  unfold safeCacheName
  by_cases hcond : goFilepathBase key = "." ∨ goFilepathBase key = "/"
  · rw [if_pos hcond]
    exact ⟨by decide, by decide⟩
  · rw [if_neg hcond]
    rcases goFilepathBase_shape key with h | h | h
    · exact absurd (Or.inl h) hcond
    · exact absurd (Or.inr h) hcond
    · exact h

/-- A non-empty separator-free key other than `"."` and `"/"` is its
own safe component. -/
theorem safeCacheName_eq_self (k : String) (hne : k ≠ "") (hsf : slashFree k)
    (hdot : k ≠ ".") (hslash : k ≠ "/") : safeCacheName k = k := by
  unfold safeCacheName
  rw [goFilepathBase_of_slashFree k hne hsf, if_neg (fun h => h.elim hdot hslash)]

/-- Length of string concatenation. -/
theorem string_len_append (a b : String) :
    (a ++ b).data.length = a.data.length + b.data.length := by
  rw [String.data_append, List.length_append]

/-- A string of length at least three is never empty, `"."`, `"/"`,
or `".."`. -/
theorem long_ne_short (k : String) (h3 : 3 ≤ k.data.length) :
    k ≠ "" ∧ k ≠ "." ∧ k ≠ "/" ∧ k ≠ ".." := by
  refine ⟨?_, ?_, ?_, ?_⟩ <;> intro h <;> rw [h] at h3 <;> exact absurd h3 (by decide)

/-- Appending preserves separator-freedom. -/
theorem slashFree_append (a b : String) (ha : slashFree a) (hb : slashFree b) :
    slashFree (a ++ b) := by
  intro hc
  rw [String.data_append] at hc
  rcases List.mem_append.mp hc with h | h
  · exact ha h
  · exact hb h

/-- Every §3 key is non-empty, separator-free, and none of the
degenerate basenames. -/
theorem specKey_props (k : String) (h : isSpecKey k) :
    k ≠ "" ∧ slashFree k ∧ k ≠ "." ∧ k ≠ "/" := by
  rcases h with ⟨id, hid, rfl⟩ | rfl | ⟨a, b, ha, hb, rfl⟩ | ⟨a, ha, rfl⟩
  · have hsf : slashFree (itemCacheKey id) := slashFree_append "item:" id (by decide) hid
    have hlen : 3 ≤ (itemCacheKey id).data.length := by
      have h5 : ("item:" : String).data.length = 5 := rfl
      have := string_len_append "item:" id
      rw [h5] at this
      show 3 ≤ ("item:" ++ id).data.length
      omega
    obtain ⟨h1, h2, h3, _⟩ := long_ne_short _ hlen
    exact ⟨h1, hsf, h2, h3⟩
  · exact ⟨by decide, by decide, by decide, by decide⟩
  · have hsf : slashFree (itemPropertyCacheKey a b) :=
      slashFree_append _ b
        (slashFree_append _ ":" (slashFree_append "item_property:" a (by decide) ha)
          (by decide)) hb
    have hlen : 3 ≤ (itemPropertyCacheKey a b).data.length := by
      have h14 : ("item_property:" : String).data.length = 14 := rfl
      have h1 : (":" : String).data.length = 1 := rfl
      have e1 := string_len_append ("item_property:" ++ a ++ ":") b
      have e2 := string_len_append ("item_property:" ++ a) ":"
      have e3 := string_len_append "item_property:" a
      rw [h14] at e3
      rw [e3, h1] at e2
      rw [e2] at e1
      show 3 ≤ ("item_property:" ++ a ++ ":" ++ b).data.length
      omega
    obtain ⟨h1, h2, h3, _⟩ := long_ne_short _ hlen
    exact ⟨h1, hsf, h2, h3⟩
  · have hsf : slashFree (itemPropertiesListCacheKey a) :=
      slashFree_append "item_properties:list:" a (by decide) ha
    have hlen : 3 ≤ (itemPropertiesListCacheKey a).data.length := by
      have h21 : ("item_properties:list:" : String).data.length = 21 := rfl
      have := string_len_append "item_properties:list:" a
      rw [h21] at this
      show 3 ≤ ("item_properties:list:" ++ a).data.length
      omega
    obtain ⟨h1, h2, h3, _⟩ := long_ne_short _ hlen
    exact ⟨h1, hsf, h2, h3⟩

/-- Distinct §3 keys map to distinct cache files. -/
theorem keyToFilename_inj (dir k1 k2 : String)
    (h1 : isSpecKey k1) (h2 : isSpecKey k2) (hne : k1 ≠ k2) :
    keyToFilename dir k1 ≠ keyToFilename dir k2 := by
  obtain ⟨h1e, h1s, h1d, h1sl⟩ := specKey_props k1 h1
  obtain ⟨h2e, h2s, h2d, h2sl⟩ := specKey_props k2 h2
  intro heq
  apply hne
  rw [keyToFilename, keyToFilename, safeCacheName_eq_self k1 h1e h1s h1d h1sl,
    safeCacheName_eq_self k2 h2e h2s h2d h2sl] at heq
  have hdata := congrArg String.data heq
  simp only [String.data_append] at hdata
  exact String.ext (List.append_cancel_left (List.append_cancel_right hdata))

/-- Counterexample to C8 as stated: the path-traversal-shaped key
`"../../etc/passwd"` is not substituted with the safe default name —
its basename is used instead (the file still lands inside the storage
directory, but under `passwd.cache`, not `default.cache`). -/
theorem C8_counterexample :
    safeCacheName "../../etc/passwd" = "passwd" ∧
    safeCacheName "../../etc/passwd" ≠ "default" ∧
    keyToFilename "cache" "../../etc/passwd" = "cache/passwd.cache" ∧
    keyToFilename "cache" "../../etc/passwd" ≠ keyToFilename "cache" "" := by
  exact ⟨by rfl, by decide, by rfl, by decide⟩

/-- C8 (amended): every key maps deterministically to a file directly
inside the configured directory — the joined component is non-empty,
separator-free and never `.` or `..`; the empty key gets the safe
default name; and the mapping is collision-free across the four §3 key
shapes.  (A path-traversal-shaped key is reduced to its basename
rather than substituted with the default name.) -/
theorem C8_filename_safety :
    (∀ dir key : String, ∃ name : String,
      keyToFilename dir key = dir ++ "/" ++ name ∧ name ≠ "" ∧ slashFree name ∧
        name ≠ "." ∧ name ≠ "..") ∧
    (∀ dir : String, keyToFilename dir "" = dir ++ "/" ++ "default" ++ ".cache") ∧
    (∀ dir k1 k2 : String, isSpecKey k1 → isSpecKey k2 → k1 ≠ k2 →
      keyToFilename dir k1 ≠ keyToFilename dir k2) := by
  refine ⟨?_, ?_, ?_⟩
  · intro dir key
    obtain ⟨hne, hsf⟩ := safeCacheName_props key
    have hlen : 3 ≤ (safeCacheName key ++ ".cache").data.length := by
      have h6 : (".cache" : String).data.length = 6 := rfl
      have := string_len_append (safeCacheName key) ".cache"
      omega
    obtain ⟨h1, h2, _, h4⟩ := long_ne_short _ hlen
    refine ⟨safeCacheName key ++ ".cache", ?_, h1, ?_, h2, h4⟩
    · unfold keyToFilename
      exact String.append_assoc (dir ++ "/") (safeCacheName key) ".cache"
    · exact slashFree_append _ _ hsf (by decide)
  · intro dir
    rfl
  · exact keyToFilename_inj

/-- Witness for C8 (amended): two concrete distinct §3 keys map to
distinct files. -/
theorem C8_filename_safety_witness :
    isSpecKey (itemCacheKey "a") ∧ isSpecKey itemsListCacheKey ∧
    itemCacheKey "a" ≠ itemsListCacheKey ∧
    keyToFilename "cache" (itemCacheKey "a") ≠ keyToFilename "cache" itemsListCacheKey := by
  have h1 : isSpecKey (itemCacheKey "a") := Or.inl ⟨"a", by decide, rfl⟩
  have h2 : isSpecKey itemsListCacheKey := Or.inr (Or.inl rfl)
  exact ⟨h1, h2, by decide, C8_filename_safety.2.2 "cache" _ _ h1 h2 (by decide)⟩
